import Mathlib

/-!
Shallow embedding of `src/update_minio.py` (and its companion `src/test.py`)
from the repository `Liaym/m_update`, together with proofs about the
properties its specification states.

The Python program fetches movie metadata, stages per-movie JSON blobs in an
object store, combines them into one archive array, and merges that archive
into a parquet snapshot deduplicated by `id`.  We embed the pure data
transformations of each function; the HTTP client and the MinIO client are
modelled by passing their observable results (parsed JSON payloads, blob
store contents) as explicit arguments and by returning the store operations
the code performs.
-/

namespace MUpdate

/-- Python values as they occur in the JSON payloads handled by the script:
strings, integers, booleans, `None`, lists and string-keyed dicts (a dict is
a key-value list in insertion order, keys unique). -/
inductive PyVal : Type where
  | str (s : String)
  | int (n : Int)
  | bool (b : Bool)
  | null
  | list (xs : List PyVal)
  | dict (fields : List (String × PyVal))

mutual

/-- Decidable equality on Python values (nested inductive, so spelled out by
hand). -/
def pyValDecEq : (a b : PyVal) → Decidable (a = b)
  | .str s, .str t =>
      match decEq s t with
      | isTrue h => isTrue (by rw [h])
      | isFalse h => isFalse (fun hh => h (by injection hh))
  | .str _, .int _ => isFalse (fun h => PyVal.noConfusion h)
  | .str _, .bool _ => isFalse (fun h => PyVal.noConfusion h)
  | .str _, .null => isFalse (fun h => PyVal.noConfusion h)
  | .str _, .list _ => isFalse (fun h => PyVal.noConfusion h)
  | .str _, .dict _ => isFalse (fun h => PyVal.noConfusion h)
  | .int _, .str _ => isFalse (fun h => PyVal.noConfusion h)
  | .int m, .int n =>
      match decEq m n with
      | isTrue h => isTrue (by rw [h])
      | isFalse h => isFalse (fun hh => h (by injection hh))
  | .int _, .bool _ => isFalse (fun h => PyVal.noConfusion h)
  | .int _, .null => isFalse (fun h => PyVal.noConfusion h)
  | .int _, .list _ => isFalse (fun h => PyVal.noConfusion h)
  | .int _, .dict _ => isFalse (fun h => PyVal.noConfusion h)
  | .bool _, .str _ => isFalse (fun h => PyVal.noConfusion h)
  | .bool _, .int _ => isFalse (fun h => PyVal.noConfusion h)
  | .bool a, .bool b =>
      match decEq a b with
      | isTrue h => isTrue (by rw [h])
      | isFalse h => isFalse (fun hh => h (by injection hh))
  | .bool _, .null => isFalse (fun h => PyVal.noConfusion h)
  | .bool _, .list _ => isFalse (fun h => PyVal.noConfusion h)
  | .bool _, .dict _ => isFalse (fun h => PyVal.noConfusion h)
  | .null, .str _ => isFalse (fun h => PyVal.noConfusion h)
  | .null, .int _ => isFalse (fun h => PyVal.noConfusion h)
  | .null, .bool _ => isFalse (fun h => PyVal.noConfusion h)
  | .null, .null => isTrue rfl
  | .null, .list _ => isFalse (fun h => PyVal.noConfusion h)
  | .null, .dict _ => isFalse (fun h => PyVal.noConfusion h)
  | .list _, .str _ => isFalse (fun h => PyVal.noConfusion h)
  | .list _, .int _ => isFalse (fun h => PyVal.noConfusion h)
  | .list _, .bool _ => isFalse (fun h => PyVal.noConfusion h)
  | .list _, .null => isFalse (fun h => PyVal.noConfusion h)
  | .list xs, .list ys =>
      match pyValListDecEq xs ys with
      | isTrue h => isTrue (by rw [h])
      | isFalse h => isFalse (fun hh => h (by injection hh))
  | .list _, .dict _ => isFalse (fun h => PyVal.noConfusion h)
  | .dict _, .str _ => isFalse (fun h => PyVal.noConfusion h)
  | .dict _, .int _ => isFalse (fun h => PyVal.noConfusion h)
  | .dict _, .bool _ => isFalse (fun h => PyVal.noConfusion h)
  | .dict _, .null => isFalse (fun h => PyVal.noConfusion h)
  | .dict _, .list _ => isFalse (fun h => PyVal.noConfusion h)
  | .dict fs, .dict gs =>
      match pyValFieldsDecEq fs gs with
      | isTrue h => isTrue (by rw [h])
      | isFalse h => isFalse (fun hh => h (by injection hh))

/-- Decidable equality on lists of Python values. -/
def pyValListDecEq : (a b : List PyVal) → Decidable (a = b)
  | [], [] => isTrue rfl
  | [], _ :: _ => isFalse (fun h => List.noConfusion h)
  | _ :: _, [] => isFalse (fun h => List.noConfusion h)
  | x :: xs, y :: ys =>
      match pyValDecEq x y with
      | isTrue h1 =>
          match pyValListDecEq xs ys with
          | isTrue h2 => isTrue (by rw [h1, h2])
          | isFalse h2 => isFalse (fun hh => h2 (by injection hh))
      | isFalse h1 => isFalse (fun hh => h1 (by injection hh))

/-- Decidable equality on dict bodies. -/
def pyValFieldsDecEq : (a b : List (String × PyVal)) → Decidable (a = b)
  | [], [] => isTrue rfl
  | [], _ :: _ => isFalse (fun h => List.noConfusion h)
  | _ :: _, [] => isFalse (fun h => List.noConfusion h)
  | (k, v) :: fs, (l, w) :: gs =>
      match decEq k l with
      | isTrue hk =>
          match pyValDecEq v w with
          | isTrue hv =>
              match pyValFieldsDecEq fs gs with
              | isTrue ht => isTrue (by rw [hk, hv, ht])
              | isFalse ht => isFalse (fun hh => ht (by injection hh))
          | isFalse hv =>
              isFalse (fun hh => hv (by cases hh; rfl))
      | isFalse hk =>
          isFalse (fun hh => hk (by cases hh; rfl))

end

instance : DecidableEq PyVal := pyValDecEq

/-- An item record: a Python dict from field names to values (also the model
of one row of a pandas DataFrame, as produced by the apply in
`load_and_update_dataset`). -/
abbrev Record := List (String × PyVal)

/-- Python `d[k]` read on a dict body: the value at the first (unique) key
`k`, or `Option.none` when the key is missing (a `KeyError`). -/
def dictGet (r : Record) (k : String) : Option PyVal :=
  (r.find? (fun p => p.1 == k)).map (fun p => p.2)

/-- Python `d[k] = v` on a dict: update the existing key in place, else
append the new key at the end (insertion order). -/
def dictSet (r : Record) (k : String) (v : PyVal) : Record :=
  if (r.find? (fun p => p.1 == k)).isSome then
    r.map (fun p => if p.1 == k then (k, v) else p)
  else
    r ++ [(k, v)]

/-- Decimal digit string of a natural number, as Python `str` renders a
non-negative integer (most significant digit first). -/
def pyNatStr (n : Nat) : String :=
  if n = 0 then "0" else ((Nat.digits 10 n).reverse.map Nat.digitChar).asString

/-- Python `str` of an integer: decimal digits, with a leading `-` when
negative. -/
def pyIntStr (n : Int) : String :=
  if n < 0 then "-" ++ pyNatStr (-n).toNat else pyNatStr n.toNat

mutual

/-- Python `repr` of a value (used by `str` on containers). -/
def pyRepr : PyVal → String
  | .str s => "'" ++ s ++ "'"
  | .int n => pyIntStr n
  | .bool b => if b then "True" else "False"
  | .null => "None"
  | .list xs => "[" ++ String.intercalate ", " (pyReprList xs) ++ "]"
  | .dict fs => "\x7b" ++ String.intercalate ", " (pyReprFields fs) ++ "\x7d"

/-- Reprs of the elements of a Python list. -/
def pyReprList : List PyVal → List String
  | [] => []
  | v :: vs => pyRepr v :: pyReprList vs

/-- Reprs of the entries of a Python dict. -/
def pyReprFields : List (String × PyVal) → List String
  | [] => []
  | (k, v) :: fs => ("'" ++ k ++ "': " ++ pyRepr v) :: pyReprFields fs

end

/-- Python `str(value)`: identity on strings, `repr`-like rendering
otherwise. -/
def pyStr : PyVal → String
  | .str s => s
  | v => pyRepr v

/-- JSON string escaping as `json.dumps` performs it on the characters that
occur here (backslash and double quote). -/
def jsonEscapeChar (c : Char) : String :=
  if c = '\\' then "\\\\" else if c = '"' then "\\\"" else String.singleton c

/-- Escape a string for inclusion in a JSON document. -/
def jsonEscape (s : String) : String :=
  String.join (s.data.map jsonEscapeChar)

mutual

/-- Python `json.dumps` of a value (default separators). -/
def jsonDumps : PyVal → String
  | .str s => "\"" ++ jsonEscape s ++ "\""
  | .int n => pyIntStr n
  | .bool b => if b then "true" else "false"
  | .null => "null"
  | .list xs => "[" ++ String.intercalate ", " (jsonDumpsList xs) ++ "]"
  | .dict fs => "\x7b" ++ String.intercalate ", " (jsonDumpsFields fs) ++ "\x7d"

/-- Serialized elements of a JSON array. -/
def jsonDumpsList : List PyVal → List String
  | [] => []
  | v :: vs => jsonDumps v :: jsonDumpsList vs

/-- Serialized entries of a JSON object. -/
def jsonDumpsFields : List (String × PyVal) → List String
  | [] => []
  | (k, v) :: fs => ("\"" ++ jsonEscape k ++ "\": " ++ jsonDumps v) :: jsonDumpsFields fs

end

/-! ### Folder and file configuration (`update_minio.py`, lines 33-37) -/

/-- Staging area for the per-movie blobs (`output_folder`). -/
def output_folder : String := "diffusion/temp_data"

/-- Archive area for the combined blobs (`archive_folder`). -/
def archive_folder : String := "diffusion/TMDB_archive"

/-! ### `get_oldest` (lines 48-52) -/

/-- Embeds `get_oldest`: the minimum of the `id` column of the snapshot
DataFrame (`Option.none` models the NaN a min over an empty frame gives). -/
def get_oldest (dataset_ids : List Int) : Option Int :=
  dataset_ids.min?

/-! ### `process_movie_ids` (lines 63-75): the Stager

The HTTP calls are modelled by passing their parsed JSON payloads
(`movie_data` for the detail endpoint, `keywords_data` for the keyword
endpoint) as arguments; the MinIO `put_object` calls the function performs
are returned as a list of (object name, payload) pairs.  `Option.none`
models an exception escaping the function. -/

/-- The staged blob path, from the f-string on line 70 (note the source
joins `output_folder` and the file name without a separator). -/
def object_name (movie_id : Int) : String :=
  output_folder ++ "scrapeTMDB_movies_" ++ pyIntStr movie_id ++ ".ndjson"

/-- Embeds `[k["name"] for k in get_keywords(movie_id)["keywords"]]` plus
the `", ".join` around it: every element must be a dict carrying a string
`name`, otherwise a KeyError/TypeError escapes (modelled as
`Option.none`). -/
def extractKeywordNames (keywords_data : Record) : Option (List String) :=
  match dictGet keywords_data "keywords" with
  | some (.list ks) =>
      ks.mapM (fun k =>
        match k with
        | .dict fs =>
            match dictGet fs "name" with
            | some (.str s) => some s
            | _ => Option.none
        | _ => Option.none)
  | _ => Option.none

/-- Embeds `process_movie_ids`: store the comma-joined keyword names into
the detail record under `keywords`, serialize with `json.dumps`, and issue
exactly one `put_object` at the path derived from the movie id. -/
def process_movie_ids (movie_id : Int) (movie_data : Record)
    (keywords_data : Record) : Option (List (String × String)) :=
  match extractKeywordNames keywords_data with
  | Option.none => Option.none
  | some names =>
      let md := dictSet movie_data "keywords"
        (.str (String.intercalate ", " names))
      some [(object_name movie_id, jsonDumps (.dict md))]

/-! ### `process_movie_data` (lines 77-94): record normalization -/

/-- One genre entry of the `genres` list, as the comprehension
`[genre["name"] for genre in movie_data["genres"] if "name" in genre]`
treats it: `some (some s)` contributes the name `s`, `some Option.none` is
filtered out by the `if`, and `Option.none` models the TypeError/KeyError
the Python expression (or the later `", ".join`) raises on that entry. -/
def genreName : PyVal → Option (Option String)
  | .dict fs =>
      match dictGet fs "name" with
      | Option.none => some Option.none
      | some (.str s) => some (some s)
      | some _ => Option.none
  | .str s => if (s.splitOn "name").length == 1 then some Option.none else Option.none
  | .list xs => if (PyVal.str "name") ∈ xs then Option.none else some Option.none
  | _ => Option.none

/-- The names collected from the `genres` list, left to right. -/
def genreNamesAux : List PyVal → Option (List String)
  | [] => some []
  | g :: gs =>
      match genreName g with
      | Option.none => Option.none
      | some o =>
          match genreNamesAux gs with
          | Option.none => Option.none
          | some rest =>
              some (match o with
                | some s => s :: rest
                | Option.none => rest)

/-- The per-field conversion of the loop on lines 86-92: a list becomes the
comma-joined `str` of its elements, `None` stays `None`, anything else
becomes its `str`. -/
def normVal : PyVal → PyVal
  | .list xs => .str (String.intercalate ", " (xs.map pyStr))
  | .null => .null
  | v => .str (pyStr v)

/-- The loop on lines 86-92 applied to every field of the record. -/
def normRecord (r : Record) : Record :=
  r.map (fun p => (p.1, normVal p.2))

/-- Embeds `process_movie_data`: the `genres` special case first (when
`genres` is present and a list, replace it by the comma-joined genre
names), then the per-field string coercion loop.  `Option.none` models an
exception escaping the function. -/
def process_movie_data (r : Record) : Option Record :=
  match dictGet r "genres" with
  | some (.list gs) =>
      match genreNamesAux gs with
      | some names =>
          some (normRecord (dictSet r "genres"
            (.str (String.intercalate ", " names))))
      | Option.none => Option.none
  | _ => some (normRecord r)

/-! ### `combine_and_upload` (lines 96-107): the Combiner

The listing returned by `list_objects` is modelled as the list of staged
blobs in store order, each blob given as its sequence of parsed JSON
lines. -/

/-- The archive path written by `combine_and_upload` (line 104). -/
def combined_object_name (date_today_str : String) : String :=
  archive_folder ++ "/combined_" ++ date_today_str ++ ".ndjson"

/-- The in-memory accumulator after the loop on lines 100-102: the
concatenation of every listed blob, in listing order. -/
def combine_records (blobs : List (List Record)) : List Record :=
  blobs.flatten

/-- Embeds `combine_and_upload`: accumulate all listed records and issue
one `put_object` of the JSON array at the dated archive path. -/
def combine_and_upload (date_today_str : String) (blobs : List (List Record)) :
    String × List Record :=
  (combined_object_name date_today_str, combine_records blobs)

/-! ### `load_and_update_dataset` (lines 109-123): the Dataset Updater -/

/-- A blob in the MinIO store, as the Dataset Updater reads it:
`pd.read_parquet` only succeeds on a parquet table, `pd.read_json` only on
a JSON array of records; anything else makes the read raise. -/
inductive BlobContent : Type where
  | parquet (rows : List Record)
  | jsonArr (rows : List Record)
deriving DecidableEq

/-- The MinIO bucket, as a path-to-blob association list. -/
abbrev Store := List (String × BlobContent)

/-- One `client.get_object` read: `Option.none` models the S3 error raised
for a missing object. -/
def store_get (st : Store) (path : String) : Option BlobContent :=
  (st.find? (fun p => p.1 == path)).map (fun p => p.2)

/-- One `client.put_object` write: replace the blob at `path`, or create
it. -/
def store_put (st : Store) (path : String) (c : BlobContent) : Store :=
  if (st.find? (fun p => p.1 == path)).isSome then
    st.map (fun p => if p.1 == path then (path, c) else p)
  else
    st ++ [(path, c)]

/-- The errors `load_and_update_dataset` can raise before its write:
a failed `get_object`, a failed parse of a fetched blob, or an exception
out of the `process_movie_data` apply. -/
inductive UpdateError : Type where
  | storeError (path : String)
  | parseError (path : String)
  | normalizeError
deriving DecidableEq

/-- Line 116: `update_data.apply(process_movie_data, axis=1)` — normalize
each archive row in order; an exception out of any row aborts the whole
apply. -/
def process_all : List Record → Option (List Record)
  | [] => some []
  | r :: rest =>
      match process_movie_data r, process_all rest with
      | some r2, some rest2 => some (r2 :: rest2)
      | _, _ => Option.none

/-- The row id used as the dedup key by `drop_duplicates(subset="id")`. -/
def getId (r : Record) : Option PyVal :=
  dictGet r "id"

/-- Pandas `drop_duplicates(subset="id")` with its default `keep="first"`:
a row survives exactly when no earlier row carries the same id.  `seen`
accumulates the ids already kept. -/
def drop_duplicates_by_id (seen : List (Option PyVal)) : List Record → List Record
  | [] => []
  | r :: rs =>
      if getId r ∈ seen then drop_duplicates_by_id seen rs
      else r :: drop_duplicates_by_id (getId r :: seen) rs

/-- Line 117: `pd.concat([original_data, update_data]).drop_duplicates(subset="id")`
(the `reset_index(drop=True)` renumbers rows and is the identity in this
row-list model). -/
def update_rows (original_rows normalized_rows : List Record) : List Record :=
  drop_duplicates_by_id [] (original_rows ++ normalized_rows)

/-- Embeds `load_and_update_dataset` as a state-passing function on the
store: read and parse the snapshot, read and parse the archive, normalize
every archive record, merge with dedup-by-id, and only then issue the
single `put_object` that overwrites the snapshot.  On an error the store is
returned as it stands at the raise. -/
def load_and_update_dataset (st : Store) (original_file update_file : String) :
    Store × Except UpdateError (List Record) :=
  match store_get st original_file with
  | Option.none => (st, .error (.storeError original_file))
  | some origBlob =>
      match origBlob with
      | .jsonArr _ => (st, .error (.parseError original_file))
      | .parquet original_data =>
          match store_get st update_file with
          | Option.none => (st, .error (.storeError update_file))
          | some updBlob =>
              match updBlob with
              | .parquet _ => (st, .error (.parseError update_file))
              | .jsonArr update_data =>
                  match process_all update_data with
                  | Option.none => (st, .error .normalizeError)
                  | some normalized =>
                      let updated_df := update_rows original_data normalized
                      (store_put st original_file (.parquet updated_df),
                        .ok updated_df)

/-! ### `executor` (lines 129-141): the Pipeline Driver -/

/-- Python `list(range(a, b))`. -/
def pythonRange (a b : Int) : List Int :=
  (List.range (b - a).toNat).map (fun (i : Nat) => a + (i : Int))

/-- Line 134: `movie_ids_list = list(range(latest-400, latest+1))`, the
bounded look-back window of the driver. -/
def movie_ids_list (latest : Int) : List Int :=
  pythonRange (latest - 400) (latest + 1)

/-- The candidate-id computation of `executor` (lines 131-134): the oldest
id is read from the snapshot (line 133) and the candidate list is built
from the latest id alone. -/
def executor_candidates (dataset_ids : List Int) (latest : Int) : List Int :=
  let _oldest := get_oldest dataset_ids
  movie_ids_list latest

/-! ## Theorems -/

/-- Membership in the embedded `list(range(a, b))`. -/
lemma mem_pythonRange (a b x : Int) : x ∈ pythonRange a b ↔ a ≤ x ∧ x < b := by
  simp only [pythonRange, List.mem_map, List.mem_range]
  constructor
  · rintro ⟨i, hi, rfl⟩
    omega
  · rintro ⟨h1, h2⟩
    exact ⟨(x - a).toNat, by omega, by omega⟩

/-- C5: in the bounded-variant driver, the candidate id set is
`range(latest-400, latest+1)`; with latest id 1000 it is exactly the 401
integers from 600 through 1000 inclusive. -/
theorem movie_ids_list_window :
    (∀ (ids : List Int) (latest : Int),
      executor_candidates ids latest = movie_ids_list latest) ∧
    (∀ latest x : Int, x ∈ movie_ids_list latest ↔ latest - 400 ≤ x ∧ x ≤ latest) ∧
    (movie_ids_list 1000).length = 401 ∧
    (∀ x : Int, x ∈ movie_ids_list 1000 ↔ 600 ≤ x ∧ x ≤ 1000) := by
  have hmem : ∀ latest x : Int,
      x ∈ movie_ids_list latest ↔ latest - 400 ≤ x ∧ x ≤ latest := by
    intro latest x
    rw [movie_ids_list, mem_pythonRange]
    omega
  refine ⟨fun ids latest => rfl, hmem, ?_, fun x => by rw [hmem]; omega⟩
  rw [movie_ids_list, pythonRange, List.length_map, List.length_range]
  rfl

/-- C10: the candidate id list of `executor` does not depend on the
snapshot contents (the oldest id is computed on line 133 but never used in
the range on line 134). -/
theorem executor_candidates_independent_of_snapshot :
    ∀ (ids₁ ids₂ : List Int) (latest : Int),
      executor_candidates ids₁ latest = executor_candidates ids₂ latest := by
  intro ids₁ ids₂ latest
  rfl

/-! ### Injectivity of the staged-blob path (for C9) -/

/-- `Nat.digitChar` is injective on decimal digits. -/
lemma digitChar_inj_on :
    ∀ a, a < 10 → ∀ b, b < 10 → Nat.digitChar a = Nat.digitChar b → a = b := by
  decide

/-- No decimal digit renders as a minus sign. -/
lemma digitChar_ne_dash_lt : ∀ d, d < 10 → Nat.digitChar d ≠ '-' := by decide

/-- The character list underlying `List.asString`. -/
lemma data_asString (l : List Char) : (List.asString l).data = l := rfl

/-- Mapping `Nat.digitChar` over digit lists is injective. -/
lemma map_digitChar_inj : ∀ l₁ l₂ : List Nat, (∀ d ∈ l₁, d < 10) → (∀ d ∈ l₂, d < 10) →
    l₁.map Nat.digitChar = l₂.map Nat.digitChar → l₁ = l₂ := by
  intro l₁
  induction l₁ with
  | nil => intro l₂ _ _ h; cases l₂ <;> simp_all
  | cons a as ih =>
    intro l₂ h1 h2 h
    cases l₂ with
    | nil => simp_all
    | cons b bs =>
      simp only [List.map_cons, List.cons.injEq] at h
      have ha := digitChar_inj_on a (h1 a (by simp)) b (h2 b (by simp)) h.1
      subst ha
      rw [ih bs (fun d hd => h1 d (by simp [hd])) (fun d hd => h2 d (by simp [hd])) h.2]

/-- Strings with equal character lists are equal. -/
lemma string_eq_of_data_eq {s t : String} (h : s.data = t.data) : s = t :=
  congrArg String.mk h

/-- The character list of a rendered positive number. -/
lemma pyNatStr_data (n : Nat) (hn : n ≠ 0) :
    (pyNatStr n).data = (List.map Nat.digitChar (Nat.digits 10 n)).reverse := by
  unfold pyNatStr
  rw [if_neg hn, data_asString, List.map_reverse]

/-- Only zero renders as the single digit `0`. -/
lemma map_digits_eq_zero_char (n : Nat)
    (h : List.map Nat.digitChar (Nat.digits 10 n) = ['0']) : n = 0 := by
  cases hdig : Nat.digits 10 n with
  | nil => rw [hdig] at h; simp at h
  | cons d ds =>
    rw [hdig] at h
    simp only [List.map_cons, List.cons.injEq] at h
    have hds : ds = [] := by cases ds <;> simp_all
    have hdm : d ∈ Nat.digits 10 n := by rw [hdig]; simp
    have hd10 : d < 10 := Nat.digits_lt_base (by norm_num) hdm
    have hd0 : d = 0 := digitChar_inj_on d hd10 0 (by norm_num) h.1
    have ho := Nat.ofDigits_digits 10 n
    rw [hdig, hds, hd0] at ho
    simpa [Nat.ofDigits] using ho.symm

/-- Decimal rendering of naturals is injective. -/
lemma pyNatStr_injective : Function.Injective pyNatStr := by
  intro m n h
  by_cases hm : m = 0 <;> by_cases hn : n = 0
  · omega
  · exfalso
    have hdata := congrArg String.data h
    rw [pyNatStr_data n hn] at hdata
    have h0 : (pyNatStr m).data = ['0'] := by
      unfold pyNatStr; rw [if_pos hm]
    rw [h0] at hdata
    have : List.map Nat.digitChar (Nat.digits 10 n) = ['0'] := by
      have := congrArg List.reverse hdata
      simpa using this.symm
    exact hn (map_digits_eq_zero_char n this)
  · exfalso
    have hdata := congrArg String.data h
    rw [pyNatStr_data m hm] at hdata
    have h0 : (pyNatStr n).data = ['0'] := by
      unfold pyNatStr; rw [if_pos hn]
    rw [h0] at hdata
    have : List.map Nat.digitChar (Nat.digits 10 m) = ['0'] := by
      have := congrArg List.reverse hdata
      simpa using this
    exact hm (map_digits_eq_zero_char m this)
  · have hdata := congrArg String.data h
    rw [pyNatStr_data m hm, pyNatStr_data n hn] at hdata
    have hmap := List.reverse_injective hdata
    have hdig := map_digitChar_inj _ _
      (fun d hd => Nat.digits_lt_base (by norm_num) hd)
      (fun d hd => Nat.digits_lt_base (by norm_num) hd) hmap
    exact Nat.digits.injective 10 hdig

/-- A rendered natural never starts with a minus sign. -/
lemma pyNatStr_not_dash_cons (n : Nat) (cs : List Char) :
    (pyNatStr n).data ≠ '-' :: cs := by
  intro h
  by_cases hn : n = 0
  · rw [hn] at h
    have h0 : (pyNatStr 0).data = ['0'] := rfl
    rw [h0] at h
    simp at h
  · rw [pyNatStr_data n hn] at h
    have hmem : '-' ∈ (List.map Nat.digitChar (Nat.digits 10 n)).reverse := by
      rw [h]; simp
    rw [List.mem_reverse, List.mem_map] at hmem
    obtain ⟨d, hdm, hdc⟩ := hmem
    exact digitChar_ne_dash_lt d (Nat.digits_lt_base (by norm_num) hdm) hdc

/-- The Python decimal rendering of integers is injective. -/
lemma pyIntStr_injective : Function.Injective pyIntStr := by
  intro x y h
  unfold pyIntStr at h
  by_cases hx : x < 0 <;> by_cases hy : y < 0
  · rw [if_pos hx, if_pos hy] at h
    have hdata := congrArg String.data h
    rw [String.data_append, String.data_append] at hdata
    have h2 : (pyNatStr (-x).toNat).data = (pyNatStr (-y).toNat).data := by
      simpa using hdata
    have := pyNatStr_injective (string_eq_of_data_eq h2)
    omega
  · exfalso
    rw [if_pos hx, if_neg hy] at h
    have hdata := congrArg String.data h
    rw [String.data_append] at hdata
    exact pyNatStr_not_dash_cons y.toNat ((pyNatStr (-x).toNat).data)
      (by simpa using hdata.symm)
  · exfalso
    rw [if_neg hx, if_pos hy] at h
    have hdata := congrArg String.data h
    rw [String.data_append] at hdata
    exact pyNatStr_not_dash_cons x.toNat ((pyNatStr (-y).toNat).data)
      (by simpa using hdata)
  · rw [if_neg hx, if_neg hy] at h
    have := pyNatStr_injective h
    omega

/-- C9: the staged-blob path scheme is injective in the id — distinct movie
ids are staged at distinct object names, so concurrent staging tasks write
to disjoint paths. -/
theorem object_name_injective_in_id :
    ∀ x y : Int, x ≠ y → object_name x ≠ object_name y := by
  intro x y hxy hobj
  apply hxy
  apply pyIntStr_injective
  apply string_eq_of_data_eq
  have hdata := congrArg String.data hobj
  unfold object_name at hdata
  simp only [String.data_append] at hdata
  exact List.append_cancel_left (List.append_cancel_right hdata)

/-- Witness for C9 at the concrete ids 1 and 2. -/
theorem object_name_injective_in_id_witness :
    (1 : Int) ≠ 2 ∧ object_name 1 ≠ object_name 2 :=
  ⟨by decide, object_name_injective_in_id 1 2 (by decide)⟩

/-- C7: when any read, parse or normalization step of
`load_and_update_dataset` fails, the function raises before the snapshot
overwrite is issued, so the store — in particular the snapshot blob — is
exactly as it was. -/
theorem load_and_update_dataset_error_preserves_store :
    ∀ (st : Store) (original_file update_file : String) (e : UpdateError),
      (load_and_update_dataset st original_file update_file).2 = .error e →
      (load_and_update_dataset st original_file update_file).1 = st := by
  intro st o u e
  unfold load_and_update_dataset
  repeat' split
  all_goals intro h
  all_goals first | rfl | simp at h

/-- Witness for C7: on an empty store the snapshot read fails and the
store comes back unchanged. -/
theorem load_and_update_dataset_error_preserves_store_witness :
    (load_and_update_dataset [] "diffusion/TMDB_movies.parquet" "arch").2
        = .error (.storeError "diffusion/TMDB_movies.parquet") ∧
    (load_and_update_dataset [] "diffusion/TMDB_movies.parquet" "arch").1 = [] :=
  ⟨rfl, load_and_update_dataset_error_preserves_store []
    "diffusion/TMDB_movies.parquet" "arch"
    (.storeError "diffusion/TMDB_movies.parquet") rfl⟩

/-- C8: `combine_and_upload` is order-independent — permuting the listing
of the staged blobs yields the same archive path and the same combined
records as a set. -/
theorem combine_and_upload_order_independent :
    ∀ (date : String) (bs₁ bs₂ : List (List Record)), bs₁.Perm bs₂ →
      (combine_and_upload date bs₁).1 = (combine_and_upload date bs₂).1 ∧
      ((combine_and_upload date bs₁).2).toFinset
        = ((combine_and_upload date bs₂).2).toFinset := by
  intro date bs₁ bs₂ hperm
  refine ⟨rfl, ?_⟩
  have hflat := hperm.flatten
  ext r
  simp only [combine_and_upload, combine_records, List.mem_toFinset]
  exact hflat.mem_iff

/-- Witness for C8 on two concretely permuted listings of two staged
blobs. -/
theorem combine_and_upload_order_independent_witness :
    (([[[("id", PyVal.int 1)]], [[("id", PyVal.int 2)]]] : List (List Record)).Perm
        [[[("id", PyVal.int 2)]], [[("id", PyVal.int 1)]]]) ∧
    (combine_and_upload "2024-05-01" [[[("id", PyVal.int 1)]], [[("id", PyVal.int 2)]]]).1
      = (combine_and_upload "2024-05-01" [[[("id", PyVal.int 2)]], [[("id", PyVal.int 1)]]]).1 ∧
    ((combine_and_upload "2024-05-01" [[[("id", PyVal.int 1)]], [[("id", PyVal.int 2)]]]).2).toFinset
      = ((combine_and_upload "2024-05-01" [[[("id", PyVal.int 2)]], [[("id", PyVal.int 1)]]]).2).toFinset := by
  have hp : (([[[("id", PyVal.int 1)]], [[("id", PyVal.int 2)]]] : List (List Record)).Perm
      [[[("id", PyVal.int 2)]], [[("id", PyVal.int 1)]]]) := by decide
  exact ⟨hp, combine_and_upload_order_independent "2024-05-01" _ _ hp⟩

/-! ### Dict update lemmas -/

/-- Finding the updated key after the in-place rewrite of `dictSet`. -/
lemma find_map_set (r : Record) (k : String) (v : PyVal) :
    List.find? (fun p => p.1 == k) (r.map (fun p => if p.1 == k then (k, v) else p))
      = (List.find? (fun p => p.1 == k) r).map (fun _ => (k, v)) := by
  induction r with
  | nil => rfl
  | cons p r ih =>
      rw [List.map_cons]
      by_cases hpv : p.1 = k
      · rw [if_pos (by simpa using hpv)]
        rw [List.find?_cons_of_pos _ (by simp), List.find?_cons_of_pos _ (by simpa using hpv)]
        rfl
      · rw [if_neg (by simpa using hpv)]
        rw [List.find?_cons_of_neg _ (by simpa using hpv),
            List.find?_cons_of_neg _ (by simpa using hpv)]
        exact ih

/-- Reading back the key just assigned by `dictSet`. -/
lemma dictGet_dictSet_self (r : Record) (k : String) (v : PyVal) :
    dictGet (dictSet r k v) k = some v := by
  unfold dictGet dictSet
  by_cases hf : (List.find? (fun p => p.1 == k) r).isSome
  · rw [if_pos hf, find_map_set]
    rcases Option.isSome_iff_exists.mp hf with ⟨p, hp⟩
    rw [hp]
    rfl
  · rw [if_neg hf, List.find?_append]
    rw [Option.not_isSome_iff_eq_none.mp hf]
    simp [List.find?]

/-- Finding a different key is unaffected by the in-place rewrite of
`dictSet`. -/
lemma find_set_ne (r : Record) (k k' : String) (v : PyVal) (hk : k' ≠ k) :
    List.find? (fun p => p.1 == k') (r.map (fun p => if p.1 == k then (k, v) else p))
      = List.find? (fun p => p.1 == k') r := by
  induction r with
  | nil => rfl
  | cons p r ih =>
      rw [List.map_cons]
      by_cases hpv : p.1 = k
      · rw [if_pos (by simpa using hpv)]
        rw [List.find?_cons_of_neg _ (by simp; exact fun h => hk h.symm),
            List.find?_cons_of_neg _ (by simp [hpv]; exact fun h => hk h.symm)]
        exact ih
      · rw [if_neg (by simpa using hpv)]
        by_cases hq : p.1 = k'
        · rw [List.find?_cons_of_pos _ (by simpa using hq),
              List.find?_cons_of_pos _ (by simpa using hq)]
        · rw [List.find?_cons_of_neg _ (by simpa using hq),
              List.find?_cons_of_neg _ (by simpa using hq)]
          exact ih

/-- Reading a different key after `dictSet`. -/
lemma dictGet_dictSet_ne (r : Record) (k k' : String) (v : PyVal) (hk : k' ≠ k) :
    dictGet (dictSet r k v) k' = dictGet r k' := by
  unfold dictGet dictSet
  by_cases hf : (List.find? (fun p => p.1 == k) r).isSome
  · rw [if_pos hf, find_set_ne r k k' v hk]
  · rw [if_neg hf, List.find?_append]
    have h1 : (k == k') = false := by
      simp only [beq_eq_false_iff_ne]
      exact fun h => hk h.symm
    simp [List.find?, h1]

/-! ### Normalization lemmas (for C3 and C4) -/

/-- The per-field coercion is idempotent: its outputs are strings or
`None`, which it leaves unchanged. -/
lemma normVal_normVal (v : PyVal) : normVal (normVal v) = normVal v := by
  cases v <;> rfl

/-- The per-field coercion never produces a list. -/
lemma normVal_ne_list (v : PyVal) (xs : List PyVal) : normVal v ≠ .list xs := by
  cases v <;> simp [normVal]

/-- The field loop is idempotent on whole records. -/
lemma normRecord_normRecord (r : Record) : normRecord (normRecord r) = normRecord r := by
  induction r with
  | nil => rfl
  | cons p r ih =>
      show (p.1, normVal (normVal p.2)) :: normRecord (normRecord r)
          = (p.1, normVal p.2) :: normRecord r
      rw [normVal_normVal, ih]

/-- Reading a key of a normalized record. -/
lemma dictGet_normRecord (r : Record) (k : String) :
    dictGet (normRecord r) k = (dictGet r k).map normVal := by
  induction r with
  | nil => rfl
  | cons p r ih =>
      by_cases hk : p.1 == k
      · simp [dictGet, normRecord, List.find?, hk]
      · simp only [dictGet, normRecord, List.map_cons, List.find?] at *
        rw [show ((p.1, normVal p.2).1 == k) = false from by simpa using hk] at *
        exact ih

/-- How the per-field coercion treats each kind of value: lists become
comma-joined strings, `None` stays `None`, everything else becomes its
`str`. -/
lemma normVal_cases (v : PyVal) :
    (match v with
      | .list _ => ∃ parts : List String, normVal v = .str (String.intercalate ", " parts)
      | .null => normVal v = .null
      | v => normVal v = .str (pyStr v)) := by
  cases v with
  | list xs => exact ⟨xs.map pyStr, rfl⟩
  | null => rfl
  | str s => rfl
  | int n => rfl
  | bool b => rfl
  | dict fs => rfl

/-- C3: record normalization is idempotent — applying `process_movie_data`
to any record it has itself produced returns that record unchanged (and
succeeds). -/
theorem process_movie_data_idempotent :
    ∀ r r' : Record, process_movie_data r = some r' → process_movie_data r' = some r' := by
  intro r r' h
  have hshape : ∃ r₀ : Record, r' = normRecord r₀ := by
    unfold process_movie_data at h
    split at h
    · split at h
      · exact ⟨_, (Option.some_inj.mp h).symm⟩
      · exact absurd h (by simp)
    · exact ⟨_, (Option.some_inj.mp h).symm⟩
  obtain ⟨r₀, rfl⟩ := hshape
  unfold process_movie_data
  cases hg : dictGet (normRecord r₀) "genres" with
  | none => exact congrArg some (normRecord_normRecord r₀)
  | some v =>
      cases v with
      | list xs =>
          exfalso
          rw [dictGet_normRecord] at hg
          rcases hmm : dictGet r₀ "genres" with _ | w <;> rw [hmm] at hg <;> simp at hg
          exact normVal_ne_list w xs hg
      | str s => exact congrArg some (normRecord_normRecord r₀)
      | int n => exact congrArg some (normRecord_normRecord r₀)
      | bool b => exact congrArg some (normRecord_normRecord r₀)
      | null => exact congrArg some (normRecord_normRecord r₀)
      | dict fs => exact congrArg some (normRecord_normRecord r₀)

/-- Witness for C3 on a record with a genre list, a boolean and a null. -/
theorem process_movie_data_idempotent_witness :
    process_movie_data
        [("genres", PyVal.list [PyVal.dict [("name", PyVal.str "Drama")]]),
         ("adult", PyVal.bool false), ("runtime", PyVal.null)]
      = some [("genres", PyVal.str "Drama"), ("adult", PyVal.str "False"),
              ("runtime", PyVal.null)] ∧
    process_movie_data
        [("genres", PyVal.str "Drama"), ("adult", PyVal.str "False"),
         ("runtime", PyVal.null)]
      = some [("genres", PyVal.str "Drama"), ("adult", PyVal.str "False"),
              ("runtime", PyVal.null)] :=
  ⟨by decide, process_movie_data_idempotent
    [("genres", PyVal.list [PyVal.dict [("name", PyVal.str "Drama")]]),
     ("adult", PyVal.bool false), ("runtime", PyVal.null)]
    [("genres", PyVal.str "Drama"), ("adult", PyVal.str "False"),
     ("runtime", PyVal.null)] (by decide)⟩

/-- C4: `process_movie_data` maps each field of the record as the spec
states — every list-valued field becomes a single comma-joined string,
every null stays null, and every other value becomes its string form. -/
theorem process_movie_data_field_map :
    ∀ (r r' : Record) (k : String) (v : PyVal),
      process_movie_data r = some r' → dictGet r k = some v →
      (match v with
        | .list _ => ∃ parts : List String,
            dictGet r' k = some (.str (String.intercalate ", " parts))
        | .null => dictGet r' k = some .null
        | w => dictGet r' k = some (.str (pyStr w))) := by
  intro r r' k v h hv
  unfold process_movie_data at h
  split at h
  · rename_i gs heq
    split at h
    · rename_i names hnames
      rw [Option.some_inj] at h
      subst h
      by_cases hkg : k = "genres"
      · subst hkg
        rw [heq, Option.some_inj] at hv
        subst hv
        refine ⟨names, ?_⟩
        rw [dictGet_normRecord, dictGet_dictSet_self]
        rfl
      · have hres : dictGet (normRecord (dictSet r "genres"
            (.str (String.intercalate ", " names)))) k = some (normVal v) := by
          rw [dictGet_normRecord, dictGet_dictSet_ne r "genres" k _ hkg, hv]
          rfl
        have hnv := normVal_cases v
        cases v with
        | list xs =>
            obtain ⟨parts, hp⟩ := hnv
            exact ⟨parts, by rw [hres, hp]⟩
        | null => rw [hres, hnv]
        | str s => rw [hres, hnv]
        | int n => rw [hres, hnv]
        | bool b => rw [hres, hnv]
        | dict fs => rw [hres, hnv]
    · exact absurd h (by simp)
  · rw [Option.some_inj] at h
    subst h
    have hres : dictGet (normRecord r) k = some (normVal v) := by
      rw [dictGet_normRecord, hv]
      rfl
    have hnv := normVal_cases v
    cases v with
    | list xs =>
        obtain ⟨parts, hp⟩ := hnv
        exact ⟨parts, by rw [hres, hp]⟩
    | null => rw [hres, hnv]
    | str s => rw [hres, hnv]
    | int n => rw [hres, hnv]
    | bool b => rw [hres, hnv]
    | dict fs => rw [hres, hnv]

/-- Witness for C4 on a record with a generic list field. -/
theorem process_movie_data_field_map_witness :
    (process_movie_data [("tags", PyVal.list [PyVal.str "a", PyVal.str "b"]),
        ("runtime", PyVal.null)]
      = some [("tags", PyVal.str "a, b"), ("runtime", PyVal.null)]) ∧
    (dictGet [("tags", PyVal.list [PyVal.str "a", PyVal.str "b"]),
        ("runtime", PyVal.null)] "tags"
      = some (PyVal.list [PyVal.str "a", PyVal.str "b"])) ∧
    (∃ parts : List String,
      dictGet [("tags", PyVal.str "a, b"), ("runtime", PyVal.null)] "tags"
        = some (PyVal.str (String.intercalate ", " parts))) :=
  ⟨by decide, by decide,
    process_movie_data_field_map
      [("tags", PyVal.list [PyVal.str "a", PyVal.str "b"]), ("runtime", PyVal.null)]
      [("tags", PyVal.str "a, b"), ("runtime", PyVal.null)]
      "tags" (PyVal.list [PyVal.str "a", PyVal.str "b"]) (by decide) (by decide)⟩

/-- C6: for every id whose fetches succeed, the Stager stores the
comma-joined keyword names into the detail record under `keywords`,
serializes it with `json.dumps`, and issues exactly one blob write, at the
path deterministically derived from the id. -/
theorem process_movie_ids_stages_one_blob :
    ∀ (movie_id : Int) (movie_data keywords_data : Record)
      (writes : List (String × String)),
      process_movie_ids movie_id movie_data keywords_data = some writes →
      ∃ names : List String,
        extractKeywordNames keywords_data = some names ∧
        writes = [(object_name movie_id,
          jsonDumps (.dict (dictSet movie_data "keywords"
            (.str (String.intercalate ", " names)))))] ∧
        writes.length = 1 := by
  intro mid md kd ws h
  unfold process_movie_ids at h
  split at h
  · exact absurd h (by simp)
  · rename_i names hn
    rw [Option.some_inj] at h
    exact ⟨names, hn, h.symm, by rw [← h]; rfl⟩

/-- Witness for C6 with two fetched keywords. -/
theorem process_movie_ids_stages_one_blob_witness :
    ∃ names : List String,
      extractKeywordNames
          [("keywords", PyVal.list [PyVal.dict [("name", PyVal.str "war")],
            PyVal.dict [("name", PyVal.str "spy")]])] = some names ∧
      ([(object_name 5, jsonDumps (.dict [("title", PyVal.str "T"),
          ("keywords", PyVal.str "war, spy")]))] : List (String × String))
        = [(object_name 5,
            jsonDumps (.dict (dictSet [("title", PyVal.str "T")] "keywords"
              (.str (String.intercalate ", " names)))))] ∧
      ([(object_name 5, jsonDumps (.dict [("title", PyVal.str "T"),
          ("keywords", PyVal.str "war, spy")]))] : List (String × String)).length = 1 :=
  process_movie_ids_stages_one_blob 5 [("title", PyVal.str "T")]
    [("keywords", PyVal.list [PyVal.dict [("name", PyVal.str "war")],
      PyVal.dict [("name", PyVal.str "spy")]])]
    [(object_name 5, jsonDumps (.dict [("title", PyVal.str "T"),
      ("keywords", PyVal.str "war, spy")]))] rfl

/-! ### Dedup lemmas (for C1 and C2) -/

/-- Dedup-keep-first preserves the first hit of any id not already seen. -/
lemma find_dedup (i : Option PyVal) :
    ∀ (l : List Record) (seen : List (Option PyVal)), i ∉ seen →
    (drop_duplicates_by_id seen l).find? (fun r => getId r == i)
      = l.find? (fun r => getId r == i) := by
  intro l
  induction l with
  | nil => intro seen _; rfl
  | cons r rs ih =>
      intro seen hi
      unfold drop_duplicates_by_id
      by_cases hr : getId r ∈ seen
      · rw [if_pos hr]
        have hne : getId r ≠ i := fun he => hi (he ▸ hr)
        rw [List.find?_cons_of_neg _ (by simpa using hne)]
        exact ih seen hi
      · rw [if_neg hr]
        by_cases hri : getId r = i
        · rw [List.find?_cons_of_pos _ (by simpa using hri),
              List.find?_cons_of_pos _ (by simpa using hri)]
        · rw [List.find?_cons_of_neg _ (by simpa using hri),
              List.find?_cons_of_neg _ (by simpa using hri)]
          exact ih (getId r :: seen) (by
            intro hmem
            rcases List.mem_cons.mp hmem with h1 | h2
            · exact hri h1.symm
            · exact hi h2)

/-- An id occurs in the deduplicated rows exactly when it occurs in the
input rows and was not already seen. -/
lemma mem_dedup_ids (i : Option PyVal) :
    ∀ (l : List Record) (seen : List (Option PyVal)),
    (i ∈ (drop_duplicates_by_id seen l).map getId ↔ (i ∈ l.map getId ∧ i ∉ seen)) := by
  intro l
  induction l with
  | nil => intro seen; simp [drop_duplicates_by_id]
  | cons r rs ih =>
      intro seen
      unfold drop_duplicates_by_id
      by_cases hr : getId r ∈ seen
      · rw [if_pos hr, ih]
        simp only [List.map_cons, List.mem_cons]
        constructor
        · rintro ⟨h1, h2⟩; exact ⟨Or.inr h1, h2⟩
        · rintro ⟨h1 | h1, h2⟩
          · exact absurd (h1 ▸ hr) h2
          · exact ⟨h1, h2⟩
      · rw [if_neg hr]
        simp only [List.map_cons, List.mem_cons, ih]
        constructor
        · rintro (h1 | ⟨h2, h3⟩)
          · subst h1
            exact ⟨Or.inl rfl, hr⟩
          · exact ⟨Or.inr h2, fun hm => h3 (Or.inr hm)⟩
        · rintro ⟨h1 | h1, h2⟩
          · exact Or.inl h1
          · by_cases he : i = getId r
            · exact Or.inl he
            · exact Or.inr ⟨h1, fun hm => hm.elim he h2⟩

/-- The deduplicated rows carry pairwise distinct ids. -/
lemma dedup_ids_nodup :
    ∀ (l : List Record) (seen : List (Option PyVal)),
    ((drop_duplicates_by_id seen l).map getId).Nodup := by
  intro l
  induction l with
  | nil => intro seen; simp [drop_duplicates_by_id]
  | cons r rs ih =>
      intro seen
      unfold drop_duplicates_by_id
      by_cases hr : getId r ∈ seen
      · rw [if_pos hr]; exact ih seen
      · rw [if_neg hr]
        simp only [List.map_cons, List.nodup_cons]
        refine ⟨fun hm => ?_, ih (getId r :: seen)⟩
        have := (mem_dedup_ids (getId r) rs (getId r :: seen)).mp hm
        exact this.2 (List.mem_cons_self _ _)

/-- Successful run of the Dataset Updater: with both blobs present, parsed
and normalized, it writes exactly the merged table back to the snapshot
path. -/
lemma load_and_update_dataset_ok (st : Store) (o u : String)
    (origRows updRows normed : List Record)
    (h1 : store_get st o = some (.parquet origRows))
    (h2 : store_get st u = some (.jsonArr updRows))
    (h3 : process_all updRows = some normed) :
    load_and_update_dataset st o u
      = (store_put st o (.parquet (update_rows origRows normed)),
          .ok (update_rows origRows normed)) := by
  unfold load_and_update_dataset
  rw [h1, h2]
  dsimp only
  rw [h3]

/-- C1 fails on the code: `drop_duplicates(subset="id")` keeps the FIRST
occurrence (the pandas default), so on the very scenario of the spec —
snapshot with ids 1, 2, 3 and `title="Old"` on id 2, archive with id 2
carrying `title="New"` plus a new id 4 — the updated snapshot keeps
`title="Old"` for id 2 rather than the archive value `"New"`. -/
theorem updateSnapshot_keeps_first_counterexample :
    (load_and_update_dataset
        [("diffusion/TMDB_movies.parquet", .parquet
            [[("id", PyVal.str "1")],
             [("id", PyVal.str "2"), ("title", PyVal.str "Old")],
             [("id", PyVal.str "3")]]),
         ("diffusion/TMDB_archive/combined_2024-05-01.ndjson", .jsonArr
            [[("id", PyVal.str "2"), ("title", PyVal.str "New")],
             [("id", PyVal.str "4")]])]
        "diffusion/TMDB_movies.parquet"
        "diffusion/TMDB_archive/combined_2024-05-01.ndjson").2
      = .ok [[("id", PyVal.str "1")],
             [("id", PyVal.str "2"), ("title", PyVal.str "Old")],
             [("id", PyVal.str "3")],
             [("id", PyVal.str "4")]] ∧
    ([[("id", PyVal.str "1")],
      [("id", PyVal.str "2"), ("title", PyVal.str "Old")],
      [("id", PyVal.str "3")],
      [("id", PyVal.str "4")]] : List Record).find?
        (fun r => getId r == some (PyVal.str "2"))
      = some [("id", PyVal.str "2"), ("title", PyVal.str "Old")] ∧
    dictGet [("id", PyVal.str "2"), ("title", PyVal.str "Old")] "title"
      = some (PyVal.str "Old") ∧
    PyVal.str "Old" ≠ PyVal.str "New" := by
  refine ⟨by rfl, by decide, by decide, by decide⟩

/-- C1 (amended): the Dataset Updater deduplicates by id keeping the FIRST
occurrence, so for every id already present in the snapshot the resulting
row is the old snapshot row, unchanged — archive rows only contribute new
ids. -/
theorem load_and_update_dataset_keeps_snapshot_row :
    ∀ (st : Store) (o u : String) (origRows updRows normed : List Record)
      (i : Option PyVal),
      store_get st o = some (.parquet origRows) →
      store_get st u = some (.jsonArr updRows) →
      process_all updRows = some normed →
      (origRows.find? (fun r => getId r == i)).isSome →
      (load_and_update_dataset st o u).2 = .ok (update_rows origRows normed) ∧
      (update_rows origRows normed).find? (fun r => getId r == i)
        = origRows.find? (fun r => getId r == i) := by
  intro st o u origRows updRows normed i h1 h2 h3 h4
  refine ⟨by rw [load_and_update_dataset_ok st o u origRows updRows normed h1 h2 h3], ?_⟩
  unfold update_rows
  rw [find_dedup i (origRows ++ normed) [] (by simp), List.find?_append]
  rcases Option.isSome_iff_exists.mp h4 with ⟨row, hrow⟩
  rw [hrow]
  rfl

/-- Witness for the amended C1: an id present in both blobs keeps its old
snapshot row. -/
theorem load_and_update_dataset_keeps_snapshot_row_witness :
    store_get [("snap", BlobContent.parquet [[("id", PyVal.str "2"), ("title", PyVal.str "Old")]]),
        ("arch", BlobContent.jsonArr [[("id", PyVal.str "2"), ("title", PyVal.str "New")]])] "snap"
      = some (.parquet [[("id", PyVal.str "2"), ("title", PyVal.str "Old")]]) ∧
    store_get [("snap", BlobContent.parquet [[("id", PyVal.str "2"), ("title", PyVal.str "Old")]]),
        ("arch", BlobContent.jsonArr [[("id", PyVal.str "2"), ("title", PyVal.str "New")]])] "arch"
      = some (.jsonArr [[("id", PyVal.str "2"), ("title", PyVal.str "New")]]) ∧
    process_all [[("id", PyVal.str "2"), ("title", PyVal.str "New")]]
      = some [[("id", PyVal.str "2"), ("title", PyVal.str "New")]] ∧
    (([[("id", PyVal.str "2"), ("title", PyVal.str "Old")]] : List Record).find?
        (fun r => getId r == some (PyVal.str "2"))).isSome ∧
    ((load_and_update_dataset [("snap", BlobContent.parquet [[("id", PyVal.str "2"), ("title", PyVal.str "Old")]]),
        ("arch", BlobContent.jsonArr [[("id", PyVal.str "2"), ("title", PyVal.str "New")]])] "snap" "arch").2
      = .ok (update_rows [[("id", PyVal.str "2"), ("title", PyVal.str "Old")]]
          [[("id", PyVal.str "2"), ("title", PyVal.str "New")]]) ∧
    (update_rows [[("id", PyVal.str "2"), ("title", PyVal.str "Old")]]
        [[("id", PyVal.str "2"), ("title", PyVal.str "New")]]).find?
        (fun r => getId r == some (PyVal.str "2"))
      = ([[("id", PyVal.str "2"), ("title", PyVal.str "Old")]] : List Record).find?
        (fun r => getId r == some (PyVal.str "2"))) :=
  ⟨by decide, by decide, by decide, by decide,
    load_and_update_dataset_keeps_snapshot_row
      [("snap", BlobContent.parquet [[("id", PyVal.str "2"), ("title", PyVal.str "Old")]]),
       ("arch", BlobContent.jsonArr [[("id", PyVal.str "2"), ("title", PyVal.str "New")]])]
      "snap" "arch"
      [[("id", PyVal.str "2"), ("title", PyVal.str "Old")]]
      [[("id", PyVal.str "2"), ("title", PyVal.str "New")]]
      [[("id", PyVal.str "2"), ("title", PyVal.str "New")]]
      (some (PyVal.str "2")) (by decide) (by decide) (by decide) (by decide)⟩

/-- C2: the updated snapshot has exactly one row per distinct id occurring
in the old snapshot or the (normalized) archive — every such id appears,
and the id column is duplicate-free. -/
theorem load_and_update_dataset_unique_ids :
    ∀ (st : Store) (o u : String) (origRows updRows normed : List Record),
      store_get st o = some (.parquet origRows) →
      store_get st u = some (.jsonArr updRows) →
      process_all updRows = some normed →
      (load_and_update_dataset st o u).2 = .ok (update_rows origRows normed) ∧
      ((update_rows origRows normed).map getId).Nodup ∧
      (∀ i : Option PyVal, i ∈ (update_rows origRows normed).map getId ↔
        (i ∈ origRows.map getId ∨ i ∈ normed.map getId)) := by
  intro st o u origRows updRows normed h1 h2 h3
  refine ⟨by rw [load_and_update_dataset_ok st o u origRows updRows normed h1 h2 h3],
    dedup_ids_nodup (origRows ++ normed) [], ?_⟩
  intro i
  unfold update_rows
  rw [mem_dedup_ids i (origRows ++ normed) []]
  simp

/-- Witness for C2 with an overlapping id and a fresh id. -/
theorem load_and_update_dataset_unique_ids_witness :
    store_get [("snap", BlobContent.parquet [[("id", PyVal.str "1")]]),
        ("arch", BlobContent.jsonArr [[("id", PyVal.str "1")], [("id", PyVal.str "4")]])] "snap"
      = some (.parquet [[("id", PyVal.str "1")]]) ∧
    store_get [("snap", BlobContent.parquet [[("id", PyVal.str "1")]]),
        ("arch", BlobContent.jsonArr [[("id", PyVal.str "1")], [("id", PyVal.str "4")]])] "arch"
      = some (.jsonArr [[("id", PyVal.str "1")], [("id", PyVal.str "4")]]) ∧
    process_all [[("id", PyVal.str "1")], [("id", PyVal.str "4")]]
      = some [[("id", PyVal.str "1")], [("id", PyVal.str "4")]] ∧
    ((load_and_update_dataset [("snap", BlobContent.parquet [[("id", PyVal.str "1")]]),
        ("arch", BlobContent.jsonArr [[("id", PyVal.str "1")], [("id", PyVal.str "4")]])] "snap" "arch").2
      = .ok (update_rows [[("id", PyVal.str "1")]]
          [[("id", PyVal.str "1")], [("id", PyVal.str "4")]]) ∧
    ((update_rows [[("id", PyVal.str "1")]]
        [[("id", PyVal.str "1")], [("id", PyVal.str "4")]]).map getId).Nodup ∧
    (∀ i : Option PyVal,
      i ∈ (update_rows [[("id", PyVal.str "1")]]
          [[("id", PyVal.str "1")], [("id", PyVal.str "4")]]).map getId ↔
      (i ∈ ([[("id", PyVal.str "1")]] : List Record).map getId ∨
        i ∈ ([[("id", PyVal.str "1")], [("id", PyVal.str "4")]] : List Record).map getId))) :=
  ⟨by decide, by decide, by decide,
    load_and_update_dataset_unique_ids
      [("snap", BlobContent.parquet [[("id", PyVal.str "1")]]),
       ("arch", BlobContent.jsonArr [[("id", PyVal.str "1")], [("id", PyVal.str "4")]])]
      "snap" "arch"
      [[("id", PyVal.str "1")]]
      [[("id", PyVal.str "1")], [("id", PyVal.str "4")]]
      [[("id", PyVal.str "1")], [("id", PyVal.str "4")]]
      (by decide) (by decide) (by decide)⟩

end MUpdate
